import Mathlib

/-!
Shallow embedding of the acquisim payment simulator core
(ledger `Bank`, session registry `ActivePayments`, payment confirmation
flow `trigger_payment`, and the request-signing token), translated from
the Rust sources:

* `src/backends/acquisim/src/bank/mod.rs`
* `src/acquisim/src/active_payment.rs`
* `src/backends/acquisim/src/routes/mod.rs`
* `src/backends/acquisim-api/src/init_payment.rs`

Shared mutable state behind `Arc<Mutex<...>>` is modelled by explicit
state passing: every mutating operation takes the current state and
returns the pair (result, new state); operations that error before
mutating return the input state unchanged, exactly as the Rust early
returns do.  Machine integers (`i64` amounts) are modelled as `Int`
(no amount arithmetic in the code can overflow a mathematical integer
besides the fold, which the claims treat mathematically as well).
Timestamps (`OffsetDateTime::now_utc()`) are passed in as an explicit
`now : Nat` parameter.
-/

instance {ε α : Type} [DecidableEq ε] [DecidableEq α] : DecidableEq (Except ε α) :=
  fun a b =>
    match a, b with
    | .ok x, .ok y =>
      if h : x = y then isTrue (by rw [h]) else isFalse (by simp [h])
    | .error x, .error y =>
      if h : x = y then isTrue (by rw [h]) else isFalse (by simp [h])
    | .ok _, .error _ => isFalse (by simp)
    | .error _, .ok _ => isFalse (by simp)

/-- Card numbers.  Modelled from the spec: the file
`src/backends/acquisim/src/domain/card_number.rs` (`CardNumber::generate`)
is not part of the corpus; the spec describes a card identifier as
"opaque, globally unique, generated — not user-chosen".  We model card
numbers as naturals and generation as drawing from a fresh counter kept
in the bank state. -/
abbrev CardNumber := Nat

/-- `Account` from `bank/mod.rs`: card number, password
(`Secret<String>`), and the `is_existing` soft-deletion flag. -/
structure Account where
  card_number : CardNumber
  password : String
  is_existing : Bool
  deriving Repr, DecidableEq

/-- The `PartialEq` impl of `Account` in `bank/mod.rs` compares card
numbers only; every `.eq` on accounts in the source goes through it. -/
def accountEq (a b : Account) : Bool :=
  a.card_number == b.card_number

/-- `Transaction` from `bank/mod.rs`: immutable record of sender,
recipient, amount and timestamp. -/
structure Transaction where
  sender : Account
  recipient : Account
  amount : Int
  datetime : Nat
  deriving Repr, DecidableEq

/-- `BankOperationError` from `bank/mod.rs` (the `MutexLockError` variant
only reports lock poisoning, which has no counterpart in a sequential
embedding and is omitted). -/
inductive BankOperationError where
  | AccountNotFound
  | AccountIsDeleted
  | NotEnoughFunds
  | NotAuthorized
  | BadTransaction
  deriving Repr, DecidableEq

/-- `BankInner` from `bank/mod.rs`: the state behind the bank mutex.
The broadcast channel fields are omitted (notification is fire-and-forget
and carries no data).  `next_card` models the global unique card-number
generator (see `CardNumber`). -/
structure BankInner where
  accounts : List Account
  transactions : List Transaction
  emission_account : Account
  store_account : Account
  bank_username : String
  next_card : Nat
  deriving Repr, DecidableEq

/-- `Bank::new`: two bootstrap accounts (emission and store) are
generated with the cashbox password; the account list and the
transaction log start empty. -/
def Bank.new (cashbox_pass : String) (bank_username : String) : BankInner :=
  { accounts := []
    transactions := []
    emission_account := ⟨0, cashbox_pass, true⟩
    store_account := ⟨1, cashbox_pass, true⟩
    bank_username := bank_username
    next_card := 2 }

/-- `Bank::balance`: fold over the transactions filtered to those that
mention the account, subtracting the amount when the account is the
sender and adding it otherwise. -/
def balance (transactions : List Transaction) (account : Account) : Int :=
  (transactions.filter (fun t =>
      accountEq t.sender account || accountEq t.recipient account)).foldl
    (fun amount t =>
      if accountEq t.sender account then amount - t.amount
      else amount + t.amount) 0

/-- `Bank::add_account`: generate a fresh card number, push an
`is_existing = true` account, return the card number. -/
def add_account (st : BankInner) (password : String) : CardNumber × BankInner :=
  let account : Account := ⟨st.next_card, password, true⟩
  (st.next_card,
   { st with accounts := st.accounts ++ [account], next_card := st.next_card + 1 })

/-- Helper for `delete_account`: flip `is_existing` on the first account
with the given card number (mirrors `iter_mut().find`), or `none` if no
account matches. -/
def markDeleted : List Account → CardNumber → Option (List Account)
  | [], _ => none
  | a :: rest, card =>
    if a.card_number == card then some ({ a with is_existing := false } :: rest)
    else (markDeleted rest card).map (a :: ·)

/-- `Bank::delete_account`: mark the first matching account as deleted,
else `AccountNotFound`; the state is unmodified on error. -/
def delete_account (st : BankInner) (card : CardNumber) :
    Except BankOperationError Unit × BankInner :=
  match markDeleted st.accounts card with
  | some accounts' => (.ok (), { st with accounts := accounts' })
  | none => (.error .AccountNotFound, st)

/-- `Bank::find_account`: first matching account, `AccountNotFound` if
absent, `AccountIsDeleted` if found but `is_existing` is false. -/
def find_account (st : BankInner) (card : CardNumber) :
    Except BankOperationError Account :=
  match st.accounts.find? (fun acc => acc.card_number == card) with
  | none => .error .AccountNotFound
  | some account =>
    if !account.is_existing then .error .AccountIsDeleted
    else .ok account

/-- `Bank::authorize_account`: `find_account`, then compare passwords. -/
def authorize_account (st : BankInner) (card : CardNumber) (password : String) :
    Except BankOperationError Account :=
  match find_account st card with
  | .error e => .error e
  | .ok account =>
    if !(account.password == password) then .error .NotAuthorized
    else .ok account

/-- `Bank::new_transaction`, preserving the order of the checks in the
source: `sender == recipient` first, then the derived-balance check,
then `amount <= 0`, and only then the append. -/
def new_transaction (st : BankInner) (sender recipient : Account)
    (amount : Int) (now : Nat) :
    Except BankOperationError Unit × BankInner :=
  if accountEq sender recipient then (.error .BadTransaction, st)
  else if balance st.transactions sender < amount then (.error .NotEnoughFunds, st)
  else if amount ≤ 0 then (.error .BadTransaction, st)
  else
    (.ok (),
     { st with transactions := st.transactions ++ [⟨sender, recipient, amount, now⟩] })

/-- `Bank::open_credit`: `find_account`, then unconditionally append a
transaction from the emission account to the found account.  The source
performs no validation of `amount`. -/
def open_credit (st : BankInner) (card : CardNumber) (amount : Int) (now : Nat) :
    Except BankOperationError Unit × BankInner :=
  match find_account st card with
  | .error e => (.error e, st)
  | .ok account =>
    (.ok (),
     { st with transactions :=
        st.transactions ++ [⟨st.emission_account, account, amount, now⟩] })

/-- `Bank::list_transactions`: the whole log. -/
def list_transactions (st : BankInner) : List Transaction :=
  st.transactions

/-- `Bank::get_store_account`. -/
def get_store_account (st : BankInner) : Account :=
  st.store_account

example :
    (new_transaction (Bank.new "pw" "bank") ⟨2, "a", true⟩ ⟨2, "a", true⟩ 10 0).1
      = .error .BadTransaction := by decide

example :
    (new_transaction (Bank.new "pw" "bank") ⟨2, "a", true⟩ ⟨3, "b", true⟩ 10 0).1
      = .error .NotEnoughFunds := by decide

/-!
Session registry (`ActivePayments`, `src/acquisim/src/active_payment.rs`)
and the cardholder confirmation handler (`trigger_payment`,
`src/backends/acquisim/src/routes/mod.rs`).  Session ids (`Uuid`) are
modelled as naturals; `Uuid::new_v4` is an input to `create_payment`.
-/

/-- `InitPaymentRequest` from
`src/backends/acquisim-api/src/init_payment.rs` (the same shape is
redeclared in `src/backends/acquisim/src/routes/api.rs`).  `Url` values
are modelled by their string serialization. -/
structure InitPaymentRequest where
  notification_url : String
  success_url : String
  fail_url : String
  amount : Int
  token : String
  deriving Repr, DecidableEq

/-- `ActivePaymentsError` from `active_payment.rs` (the mutex-poisoning
variant is omitted, as for the bank). -/
inductive ActivePaymentsError where
  | NoPaymentError (id : Nat)
  deriving Repr, DecidableEq

/-- `ActivePayment` from `active_payment.rs`. -/
structure ActivePayment where
  request : InitPaymentRequest
  store_card : CardNumber
  creation_time : Nat
  id : Nat
  deriving Repr, DecidableEq

/-- `ActivePayments::create_payment`: push a new session.  The fresh
`Uuid::new_v4()` and `OffsetDateTime::now_utc()` are explicit inputs. -/
def create_payment (reg : List ActivePayment) (request : InitPaymentRequest)
    (store_card : CardNumber) (id : Nat) (now : Nat) :
    (Nat × Nat) × List ActivePayment :=
  ((id, now), reg ++ [⟨request, store_card, now, id⟩])

/-- Index of the first session with the given id, mirroring
`iter().position(|p| p.id.eq(&id))`. -/
def positionOfId : List ActivePayment → Nat → Option Nat
  | [], _ => none
  | p :: rest, id =>
    if p.id == id then some 0
    else (positionOfId rest id).map (· + 1)

/-- `Vec::swap_remove(pos)`: the element at `pos` is replaced by the last
element, which is then popped. -/
def swapRemove (l : List ActivePayment) (pos : Nat) : List ActivePayment :=
  match l.getLast? with
  | none => l
  | some x => (l.set pos x).dropLast

/-- `ActivePayments::remove_payment`: `swap_remove` the first session
with the given id if present; an absent id is not an error. -/
def remove_payment (reg : List ActivePayment) (id : Nat) :
    Except ActivePaymentsError Unit × List ActivePayment :=
  match positionOfId reg id with
  | some pos => (.ok (), swapRemove reg pos)
  | none => (.ok (), reg)

/-- `ActivePayments::try_acquire_payment`: find the first session with
the given id and return a clone of it, else `NoPaymentError`.  The Rust
method only reads the vector (`iter().find` + `clone`), so the registry
is returned unchanged in both cases. -/
def try_acquire_payment (reg : List ActivePayment) (id : Nat) :
    Except ActivePaymentsError ActivePayment × List ActivePayment :=
  match reg.find? (fun p => p.id == id) with
  | some payment => (.ok payment, reg)
  | none => (.error (.NoPaymentError id), reg)

/-- Outcome of the `trigger_payment` axum handler:
`Err(StatusCode::BAD_REQUEST)` or `Ok(Redirect::to(url))`. -/
inductive TriggerResult where
  | err (code : Nat)
  | redirect (url : String)
  deriving Repr, DecidableEq

/-- `trigger_payment` from `src/backends/acquisim/src/routes/mod.rs`:
acquire the session, authorize the cardholder, check the store account,
perform the transfer.  The authorization-failure and store-mismatch
paths `return` early, before the `remove_payment` call at the end of the
function; both transfer outcomes reach it (the success arm additionally
removes once more inside the match). -/
def trigger_payment (bank : BankInner) (reg : List ActivePayment)
    (payment_id : Nat) (card : CardNumber) (password : String) (now : Nat) :
    TriggerResult × BankInner × List ActivePayment :=
  match (try_acquire_payment reg payment_id).1 with
  | .error _ => (.err 400, bank, reg)
  | .ok payment =>
    match authorize_account bank card password with
    | .error _ => (.redirect payment.request.fail_url, bank, reg)
    | .ok account =>
      let store_account := get_store_account bank
      if !(store_account.card_number == payment.store_card) then
        (.redirect payment.request.fail_url, bank, reg)
      else
        match new_transaction bank account store_account payment.request.amount now with
        | (.ok _, bank') =>
          let reg1 := (remove_payment reg payment.id).2
          let reg2 := (remove_payment reg1 payment.id).2
          (.redirect payment.request.success_url, bank', reg2)
        | (.error _, _) =>
          (.redirect payment.request.fail_url, bank,
           (remove_payment reg payment.id).2)

/-!
Ledger operation traces, used for the invariant claims: each operation
is applied to the state; an operation that errors leaves the state
unchanged (as the Rust early returns do, see the definitions above).
-/

/-- The mutating ledger operations. -/
inductive BankOp where
  | addAccount (password : String)
  | deleteAccount (card : CardNumber)
  | openCredit (card : CardNumber) (amount : Int) (now : Nat)
  | newTransaction (sender recipient : Account) (amount : Int) (now : Nat)

/-- Apply one ledger operation to the bank state. -/
def applyOp (st : BankInner) : BankOp → BankInner
  | .addAccount password => (add_account st password).2
  | .deleteAccount card => (delete_account st card).2
  | .openCredit card amount now => (open_credit st card amount now).2
  | .newTransaction s r amount now => (new_transaction st s r amount now).2

/-- Apply a sequence of ledger operations. -/
def applyOps (st : BankInner) (ops : List BankOp) : BankInner :=
  ops.foldl applyOp st

/-- The operations claim C1 quantifies over: `add_account`,
`open_credit` with positive amount, and `new_transaction`. -/
def C1Op : BankOp → Prop
  | .addAccount _ => True
  | .deleteAccount _ => False
  | .openCredit _ amount _ => 0 < amount
  | .newTransaction _ _ _ _ => True

/-- Balance as worded by the spec (for claim C5): a fold over the whole
log adding the amount when the account is the recipient and subtracting
it when the account is the sender. -/
def spec_balance (transactions : List Transaction) (account : Account) : Int :=
  transactions.foldl
    (fun acc t =>
      acc + (if accountEq t.recipient account then t.amount else 0)
          - (if accountEq t.sender account then t.amount else 0)) 0

/-- Per-transaction contribution of the code's balance fold. -/
def txContrib (t : Transaction) (account : Account) : Int :=
  if accountEq t.sender account then -t.amount
  else if accountEq t.recipient account then t.amount
  else 0

lemma accountEq_of_eq_of_eq {s r a : Account}
    (hs : accountEq s a = true) (hr : accountEq r a = true) :
    accountEq s r = true := by
  simp only [accountEq, Nat.beq_eq_true_eq] at *
  omega

lemma balance_card_eq (l : List Transaction) (a b : Account)
    (h : a.card_number = b.card_number) : balance l a = balance l b := by
  simp only [balance, accountEq, h]

lemma balance_go (a : Account) (l : List Transaction) (c : Int) :
    l.foldl
      (fun amount t =>
        if accountEq t.sender a then amount - t.amount else amount + t.amount) c
      = c + (l.map (fun t =>
          if accountEq t.sender a then -t.amount else t.amount)).sum := by
  induction l generalizing c with
  | nil => simp
  | cons t l ih =>
    simp only [List.foldl_cons, List.map_cons, List.sum_cons, ih]
    split <;> ring

lemma balance_cons (t : Transaction) (l : List Transaction) (a : Account) :
    balance (t :: l) a = txContrib t a + balance l a := by
  simp only [balance, List.filter_cons, txContrib]
  by_cases hs : accountEq t.sender a = true
  · simp only [hs, Bool.true_or, if_true, List.foldl_cons]
    rw [balance_go, balance_go]
    ring
  · rw [Bool.not_eq_true] at hs
    by_cases hr : accountEq t.recipient a = true
    · simp only [hs, hr, Bool.false_or, if_true, List.foldl_cons]
      rw [balance_go, balance_go]
      simp
    · rw [Bool.not_eq_true] at hr
      simp [hs, hr]

lemma balance_eq_sum (l : List Transaction) (a : Account) :
    balance l a = (l.map (fun t => txContrib t a)).sum := by
  induction l with
  | nil => rfl
  | cons t l ih => rw [balance_cons, ih, List.map_cons, List.sum_cons]

lemma balance_append (l₁ l₂ : List Transaction) (a : Account) :
    balance (l₁ ++ l₂) a = balance l₁ a + balance l₂ a := by
  simp [balance_eq_sum]

lemma balance_append_single (l : List Transaction) (t : Transaction) (a : Account) :
    balance (l ++ [t]) a = balance l a + txContrib t a := by
  rw [balance_append]
  simp [balance_eq_sum]

lemma applyOp_emission (st : BankInner) (op : BankOp) :
    (applyOp st op).emission_account = st.emission_account := by
  cases op with
  | addAccount password => rfl
  | deleteAccount card =>
    simp only [applyOp, delete_account]
    split <;> rfl
  | openCredit card amount now =>
    simp only [applyOp, open_credit]
    split <;> rfl
  | newTransaction s r amount now =>
    simp only [applyOp, new_transaction]
    split
    · rfl
    · split
      · rfl
      · split <;> rfl

lemma c1_step (st : BankInner) (op : BankOp) (hop : C1Op op)
    (ih : ∀ c : Nat, c ≠ st.emission_account.card_number →
      0 ≤ balance st.transactions ⟨c, "", true⟩) :
    ∀ c : Nat, c ≠ st.emission_account.card_number →
      0 ≤ balance (applyOp st op).transactions ⟨c, "", true⟩ := by
  intro c hc
  cases op with
  | addAccount password => exact ih c hc
  | deleteAccount card => exact hop.elim
  | openCredit card amount now =>
    simp only [applyOp, open_credit]
    cases hfind : find_account st card with
    | error e => simpa [hfind] using ih c hc
    | ok acc =>
      simp only [hfind]
      rw [balance_append_single]
      refine add_nonneg (ih c hc) ?_
      simp only [txContrib, accountEq]
      have hem : (st.emission_account.card_number == c) = false := by
        simp only [beq_eq_false_iff_ne, ne_eq]
        exact fun h => hc h.symm
      rw [hem]
      simp only [Bool.false_eq_true, if_false]
      split
      · exact le_of_lt hop
      · exact le_refl 0
  | newTransaction s r amount now =>
    simp only [applyOp, new_transaction]
    split
    · exact ih c hc
    · rename_i h1
      split
      · exact ih c hc
      · rename_i h2
        split
        · exact ih c hc
        · rename_i h3
          rw [balance_append_single]
          by_cases hsc : accountEq s ⟨c, "", true⟩ = true
          · have hcard : c = s.card_number := by
              have := hsc
              simp only [accountEq, Nat.beq_eq_true_eq] at this
              omega
            have hb : balance st.transactions ⟨c, "", true⟩
                = balance st.transactions s :=
              balance_card_eq _ _ _ (by simpa using hcard)
            simp only [txContrib, hsc, if_true]
            rw [hb]
            have := not_lt.mp h2
            omega
          · refine add_nonneg (ih c hc) ?_
            rw [Bool.not_eq_true] at hsc
            simp only [txContrib, hsc, Bool.false_eq_true, if_false]
            have : 0 < amount := not_le.mp h3
            split
            · omega
            · exact le_refl 0

lemma c1_inv (ops : List BankOp) : ∀ (st : BankInner),
    (∀ op ∈ ops, C1Op op) →
    (∀ c : Nat, c ≠ st.emission_account.card_number →
      0 ≤ balance st.transactions ⟨c, "", true⟩) →
    ∀ c : Nat, c ≠ (applyOps st ops).emission_account.card_number →
      0 ≤ balance (applyOps st ops).transactions ⟨c, "", true⟩ := by
  induction ops with
  | nil => intro st _ h c hc; exact h c hc
  | cons op ops ih =>
    intro st hops hinv
    refine ih (applyOp st op)
      (fun o ho => hops o (List.mem_cons_of_mem _ ho)) ?_
    intro c hc
    rw [applyOp_emission] at hc
    exact c1_step st op (hops op (List.mem_cons_self _ _)) hinv c hc

lemma spec_balance_eq_sum (l : List Transaction) (a : Account) :
    spec_balance l a
      = (l.map (fun t =>
          (if accountEq t.recipient a then t.amount else 0)
            - (if accountEq t.sender a then t.amount else 0))).sum := by
  suffices h : ∀ c : Int, l.foldl
      (fun acc t =>
        acc + (if accountEq t.recipient a then t.amount else 0)
            - (if accountEq t.sender a then t.amount else 0)) c
      = c + (l.map (fun t =>
          (if accountEq t.recipient a then t.amount else 0)
            - (if accountEq t.sender a then t.amount else 0))).sum by
    simpa [spec_balance] using h 0
  induction l with
  | nil => simp
  | cons t l ih =>
    intro c
    simp only [List.foldl_cons, List.map_cons, List.sum_cons, ih]
    ring

/-!
Claim theorems.
-/

/-- Claim C1: for every sequence of successful ledger operations from a
fresh bank (`add_account`, `open_credit` with positive amount,
`new_transaction`; an operation that errors commits nothing), the
derived balance of every card other than the emission account's card is
never negative; and a transfer (distinct sender and recipient) that
would leave the sender's derived balance below zero is rejected with
`NotEnoughFunds` and leaves the state unchanged. -/
theorem claim_c1 :
    (∀ (pw user : String) (ops : List BankOp), (∀ op ∈ ops, C1Op op) →
      ∀ c : Nat, c ≠ (applyOps (Bank.new pw user) ops).emission_account.card_number →
        0 ≤ balance (applyOps (Bank.new pw user) ops).transactions ⟨c, "", true⟩)
  ∧ (∀ (st : BankInner) (sender recipient : Account) (amount : Int) (now : Nat),
      accountEq sender recipient = false →
      balance st.transactions sender < amount →
      new_transaction st sender recipient amount now = (.error .NotEnoughFunds, st)) := by
  constructor
  · intro pw user ops hops c hc
    exact c1_inv ops (Bank.new pw user) hops (fun c _ => le_refl 0) c hc
  · intro st s r amount now hsr hbal
    simp [new_transaction, hsr, hbal]

/-- Witness for C1 at a concrete trace (add an account, credit it 100,
transfer 30 to the store card) and a concrete rejected transfer. -/
theorem claim_c1_witness :
    (0 ≤ balance
      (applyOps (Bank.new "p" "u")
        [.addAccount "q", .openCredit 2 100 0,
         .newTransaction ⟨2, "q", true⟩ ⟨1, "p", true⟩ 30 1]).transactions
      ⟨2, "", true⟩)
  ∧ new_transaction (Bank.new "p" "u") ⟨2, "a", true⟩ ⟨3, "b", true⟩ 50 0
      = (.error .NotEnoughFunds, Bank.new "p" "u") :=
  ⟨claim_c1.1 "p" "u"
      [.addAccount "q", .openCredit 2 100 0,
       .newTransaction ⟨2, "q", true⟩ ⟨1, "p", true⟩ 30 1]
      (by simp [C1Op]) 2 (by decide),
   claim_c1.2 (Bank.new "p" "u") ⟨2, "a", true⟩ ⟨3, "b", true⟩ 50 0
      (by decide) (by decide)⟩

/-- Counterexample to claim C2 as stated: in a bank state where the
sender's derived balance is negative (reachable, e.g. via `open_credit`
with a negative amount), a call with `sender ≠ recipient` and
`amount = -5 ≤ 0` returns `NotEnoughFunds`, not the `BadTransaction` the
claim requires for every non-positive amount: the source checks the
balance before checking `amount <= 0`. -/
theorem claim_c2_counterexample :
    (new_transaction
      { accounts := [⟨2, "a", true⟩, ⟨3, "b", true⟩]
        transactions := [⟨⟨0, "pw", true⟩, ⟨2, "a", true⟩, -10, 0⟩]
        emission_account := ⟨0, "pw", true⟩
        store_account := ⟨1, "pw", true⟩
        bank_username := "bank"
        next_card := 4 }
      ⟨2, "a", true⟩ ⟨3, "b", true⟩ (-5) 1).1 = .error .NotEnoughFunds
    ∧ accountEq ⟨2, "a", true⟩ ⟨3, "b", true⟩ = false
    ∧ ((-5 : Int) ≤ 0)
    ∧ BankOperationError.NotEnoughFunds ≠ BankOperationError.BadTransaction := by
  decide

/-- Claim C2 as amended: the checks run in the source's order —
`sender == recipient` gives `BadTransaction`; otherwise an insufficient
derived balance gives `NotEnoughFunds` (even when `amount ≤ 0`);
otherwise `amount ≤ 0` gives `BadTransaction`; otherwise the call
succeeds and appends exactly one transaction with that sender, recipient
and amount; every error leaves the state (hence the log) unchanged. -/
theorem claim_c2_amended :
    ∀ (st : BankInner) (sender recipient : Account) (amount : Int) (now : Nat),
      (accountEq sender recipient = true →
        new_transaction st sender recipient amount now = (.error .BadTransaction, st))
    ∧ (accountEq sender recipient = false →
        balance st.transactions sender < amount →
        new_transaction st sender recipient amount now = (.error .NotEnoughFunds, st))
    ∧ (accountEq sender recipient = false →
        ¬ balance st.transactions sender < amount →
        amount ≤ 0 →
        new_transaction st sender recipient amount now = (.error .BadTransaction, st))
    ∧ (accountEq sender recipient = false →
        ¬ balance st.transactions sender < amount →
        0 < amount →
        new_transaction st sender recipient amount now =
          (.ok (), { st with transactions :=
            st.transactions ++ [⟨sender, recipient, amount, now⟩] })) := by
  intro st s r amount now
  refine ⟨fun h1 => ?_, fun h1 h2 => ?_, fun h1 h2 h3 => ?_, fun h1 h2 h3 => ?_⟩
  · simp [new_transaction, h1]
  · simp [new_transaction, h1, h2]
  · simp [new_transaction, h1, h2, h3]
  · simp [new_transaction, h1, h2, not_le.mpr h3]

/-- Witness for the amended C2 at concrete inputs: a successful transfer
appends exactly the expected transaction, and a self-transfer is
rejected with `BadTransaction`. -/
theorem claim_c2_amended_witness :
    (new_transaction
      { accounts := [⟨2, "a", true⟩, ⟨3, "b", true⟩]
        transactions := [⟨⟨0, "pw", true⟩, ⟨2, "a", true⟩, 10, 0⟩]
        emission_account := ⟨0, "pw", true⟩
        store_account := ⟨1, "pw", true⟩
        bank_username := "bank"
        next_card := 4 }
      ⟨2, "a", true⟩ ⟨3, "b", true⟩ 5 1
      = (.ok (),
        { accounts := [⟨2, "a", true⟩, ⟨3, "b", true⟩]
          transactions := [⟨⟨0, "pw", true⟩, ⟨2, "a", true⟩, 10, 0⟩,
            ⟨⟨2, "a", true⟩, ⟨3, "b", true⟩, 5, 1⟩]
          emission_account := ⟨0, "pw", true⟩
          store_account := ⟨1, "pw", true⟩
          bank_username := "bank"
          next_card := 4 }))
    ∧ new_transaction (Bank.new "p" "u") ⟨2, "a", true⟩ ⟨2, "a", true⟩ 10 0
        = (.error .BadTransaction, Bank.new "p" "u") :=
  ⟨(claim_c2_amended
      { accounts := [⟨2, "a", true⟩, ⟨3, "b", true⟩]
        transactions := [⟨⟨0, "pw", true⟩, ⟨2, "a", true⟩, 10, 0⟩]
        emission_account := ⟨0, "pw", true⟩
        store_account := ⟨1, "pw", true⟩
        bank_username := "bank"
        next_card := 4 }
      ⟨2, "a", true⟩ ⟨3, "b", true⟩ 5 1).2.2.2
      (by decide) (by decide) (by decide),
   (claim_c2_amended (Bank.new "p" "u") ⟨2, "a", true⟩ ⟨2, "a", true⟩ 10 0).1
      (by decide)⟩

/-- Counterexample to claim C5 as stated over every transaction log: on
a log containing a self-transaction (the account is both sender and
recipient) the code's fold counts `-amount` (the sender branch wins),
while the claim's fold counts `+amount - amount = 0`. -/
theorem claim_c5_counterexample :
    balance [⟨⟨2, "a", true⟩, ⟨2, "a", true⟩, 5, 0⟩] ⟨2, "a", true⟩
      ≠ spec_balance [⟨⟨2, "a", true⟩, ⟨2, "a", true⟩, 5, 0⟩] ⟨2, "a", true⟩ := by
  decide

/-- Claim C5 as amended: for every account and every transaction log in
which no transaction has the same card as sender and recipient (the
ledger's transaction invariant), `balance` equals the spec's fold that
adds the amount for each transaction whose recipient is the account and
subtracts it for each whose sender is the account. -/
theorem claim_c5_amended :
    ∀ (l : List Transaction) (a : Account),
      (∀ t ∈ l, accountEq t.sender t.recipient = false) →
      balance l a = spec_balance l a := by
  intro l a h
  rw [balance_eq_sum, spec_balance_eq_sum]
  refine congrArg List.sum (List.map_congr_left ?_)
  intro t ht
  have hsr := h t ht
  simp only [txContrib]
  by_cases hs : accountEq t.sender a = true
  · have hr : accountEq t.recipient a = false := by
      by_contra hr'
      rw [Bool.not_eq_false] at hr'
      rw [accountEq_of_eq_of_eq hs hr'] at hsr
      simp at hsr
    simp [hs, hr]
  · rw [Bool.not_eq_true] at hs
    simp [hs]

/-- Witness for the amended C5: a concrete log (an emission credit of 10
to account 2) satisfying the no-self-transaction hypothesis, on which
the two folds agree. -/
theorem claim_c5_amended_witness :
    balance [⟨⟨0, "pw", true⟩, ⟨2, "a", true⟩, 10, 0⟩] ⟨2, "a", true⟩
      = spec_balance [⟨⟨0, "pw", true⟩, ⟨2, "a", true⟩, 10, 0⟩] ⟨2, "a", true⟩ :=
  claim_c5_amended [⟨⟨0, "pw", true⟩, ⟨2, "a", true⟩, 10, 0⟩] ⟨2, "a", true⟩
    (by decide)

/-- Counterexample to claim C7 as stated: `open_credit` on an existing,
non-deleted account with the non-positive amount `-5` succeeds and
appends a transaction — the source performs no amount validation at all,
so the `BadTransaction` rejection the claim requires does not happen. -/
theorem claim_c7_counterexample :
    (open_credit
      { accounts := [⟨2, "a", true⟩]
        transactions := []
        emission_account := ⟨0, "pw", true⟩
        store_account := ⟨1, "pw", true⟩
        bank_username := "bank"
        next_card := 3 }
      2 (-5) 0).1 = .ok ()
    ∧ (open_credit
      { accounts := [⟨2, "a", true⟩]
        transactions := []
        emission_account := ⟨0, "pw", true⟩
        store_account := ⟨1, "pw", true⟩
        bank_username := "bank"
        next_card := 3 }
      2 (-5) 0).2.transactions
        = [⟨⟨0, "pw", true⟩, ⟨2, "a", true⟩, -5, 0⟩]
    ∧ ((-5 : Int) ≤ 0) := by
  decide

/-- Claim C7 as amended: `open_credit` checks only that the target
account exists and is not deleted (propagating `find_account`'s
`AccountNotFound` / `AccountIsDeleted` and leaving the state unchanged),
and for every found account and EVERY amount — positive or not — it
succeeds and appends exactly one transaction from the emission account
to the target. -/
theorem claim_c7_amended :
    ∀ (st : BankInner) (card : CardNumber) (amount : Int) (now : Nat),
      (∀ e, find_account st card = .error e →
        open_credit st card amount now = (.error e, st))
    ∧ (∀ acc, find_account st card = .ok acc →
        open_credit st card amount now =
          (.ok (), { st with transactions :=
            st.transactions ++ [⟨st.emission_account, acc, amount, now⟩] })) := by
  intro st card amount now
  constructor <;> intro x hx <;> simp [open_credit, hx]

/-- Witness for the amended C7 at concrete inputs: crediting an existing
account appends the transaction; a missing card yields
`AccountNotFound` with the state unchanged. -/
theorem claim_c7_amended_witness :
    (open_credit
      { accounts := [⟨2, "a", true⟩]
        transactions := []
        emission_account := ⟨0, "pw", true⟩
        store_account := ⟨1, "pw", true⟩
        bank_username := "bank"
        next_card := 3 }
      2 7 0
      = (.ok (),
        { accounts := [⟨2, "a", true⟩]
          transactions := [⟨⟨0, "pw", true⟩, ⟨2, "a", true⟩, 7, 0⟩]
          emission_account := ⟨0, "pw", true⟩
          store_account := ⟨1, "pw", true⟩
          bank_username := "bank"
          next_card := 3 }))
    ∧ open_credit (Bank.new "p" "u") 9 7 0
        = (.error .AccountNotFound, Bank.new "p" "u") :=
  ⟨(claim_c7_amended
      { accounts := [⟨2, "a", true⟩]
        transactions := []
        emission_account := ⟨0, "pw", true⟩
        store_account := ⟨1, "pw", true⟩
        bank_username := "bank"
        next_card := 3 }
      2 7 0).2 ⟨2, "a", true⟩ (by decide),
   (claim_c7_amended (Bank.new "p" "u") 9 7 0).1 .AccountNotFound (by decide)⟩

lemma markDeleted_find? (l : List Account) (card : CardNumber)
    (l' : List Account) (h : markDeleted l card = some l') :
    ∃ a, l'.find? (fun acc => acc.card_number == card) = some a
      ∧ a.is_existing = false := by
  induction l generalizing l' with
  | nil => simp [markDeleted] at h
  | cons x rest ih =>
    simp only [markDeleted] at h
    by_cases hx : (x.card_number == card) = true
    · rw [if_pos hx] at h
      obtain rfl : { x with is_existing := false } :: rest = l' :=
        Option.some.inj h
      exact ⟨{ x with is_existing := false },
        List.find?_cons_of_pos _ hx, rfl⟩
    · rw [if_neg hx] at h
      cases hm : markDeleted rest card with
      | none => rw [hm] at h; simp at h
      | some r' =>
        rw [hm] at h
        obtain rfl : x :: r' = l' := Option.some.inj (by simpa using h)
        obtain ⟨a, hfind, hex⟩ := ih r' hm
        refine ⟨a, ?_, hex⟩
        rw [List.find?_cons_of_neg _ (by simpa using hx)]
        exact hfind

/-- Claim C8: after a successful `delete_account(card)`, both
`find_account(card)` and `authorize_account(card, pw)` for any password
fail (with `AccountIsDeleted`), while the transaction log is untouched:
`list_transactions` still returns every transaction, in particular every
one in which that card was sender or recipient. -/
theorem claim_c8 :
    ∀ (st : BankInner) (card : CardNumber) (password : String),
      (delete_account st card).1 = .ok () →
      find_account (delete_account st card).2 card = .error .AccountIsDeleted
    ∧ authorize_account (delete_account st card).2 card password
        = .error .AccountIsDeleted
    ∧ (delete_account st card).2.transactions = st.transactions
    ∧ (∀ t ∈ st.transactions,
        (accountEq t.sender ⟨card, "", true⟩ = true
          ∨ accountEq t.recipient ⟨card, "", true⟩ = true) →
        t ∈ list_transactions (delete_account st card).2) := by
  intro st card password hok
  cases hmark : markDeleted st.accounts card with
  | none => rw [delete_account, hmark] at hok; simp at hok
  | some accounts' =>
    obtain ⟨a, hfind, hex⟩ := markDeleted_find? st.accounts card accounts' hmark
    have hfa : find_account (delete_account st card).2 card
        = .error .AccountIsDeleted := by
      rw [delete_account, hmark]
      simp only [find_account]
      rw [hfind]
      simp [hex]
    refine ⟨hfa, ?_, ?_, ?_⟩
    · rw [authorize_account, hfa]
    · rw [delete_account, hmark]
    · intro t ht _
      rw [delete_account, hmark]
      exact ht

/-- Witness for C8: delete the only account of a concrete bank, then
look it up, authorize against it, and check the log entry survives. -/
theorem claim_c8_witness :
    find_account (delete_account
      { accounts := [⟨2, "a", true⟩]
        transactions := [⟨⟨0, "pw", true⟩, ⟨2, "a", true⟩, 10, 0⟩]
        emission_account := ⟨0, "pw", true⟩
        store_account := ⟨1, "pw", true⟩
        bank_username := "bank"
        next_card := 3 } 2).2 2 = .error .AccountIsDeleted
    ∧ authorize_account (delete_account
      { accounts := [⟨2, "a", true⟩]
        transactions := [⟨⟨0, "pw", true⟩, ⟨2, "a", true⟩, 10, 0⟩]
        emission_account := ⟨0, "pw", true⟩
        store_account := ⟨1, "pw", true⟩
        bank_username := "bank"
        next_card := 3 } 2).2 2 "a" = .error .AccountIsDeleted
    ∧ (⟨⟨0, "pw", true⟩, ⟨2, "a", true⟩, 10, 0⟩ : Transaction)
        ∈ list_transactions (delete_account
      { accounts := [⟨2, "a", true⟩]
        transactions := [⟨⟨0, "pw", true⟩, ⟨2, "a", true⟩, 10, 0⟩]
        emission_account := ⟨0, "pw", true⟩
        store_account := ⟨1, "pw", true⟩
        bank_username := "bank"
        next_card := 3 } 2).2 :=
  ⟨(claim_c8
      { accounts := [⟨2, "a", true⟩]
        transactions := [⟨⟨0, "pw", true⟩, ⟨2, "a", true⟩, 10, 0⟩]
        emission_account := ⟨0, "pw", true⟩
        store_account := ⟨1, "pw", true⟩
        bank_username := "bank"
        next_card := 3 } 2 "a" (by decide)).1,
   (claim_c8
      { accounts := [⟨2, "a", true⟩]
        transactions := [⟨⟨0, "pw", true⟩, ⟨2, "a", true⟩, 10, 0⟩]
        emission_account := ⟨0, "pw", true⟩
        store_account := ⟨1, "pw", true⟩
        bank_username := "bank"
        next_card := 3 } 2 "a" (by decide)).2.1,
   (claim_c8
      { accounts := [⟨2, "a", true⟩]
        transactions := [⟨⟨0, "pw", true⟩, ⟨2, "a", true⟩, 10, 0⟩]
        emission_account := ⟨0, "pw", true⟩
        store_account := ⟨1, "pw", true⟩
        bank_username := "bank"
        next_card := 3 } 2 "a" (by decide)).2.2.2
      ⟨⟨0, "pw", true⟩, ⟨2, "a", true⟩, 10, 0⟩ (by decide) (by decide)⟩

lemma positionOfId_some (l : List ActivePayment) (id : Nat) (pos : Nat)
    (h : positionOfId l id = some pos) :
    ∃ hlt : pos < l.length, (l.get ⟨pos, hlt⟩).id = id := by
  induction l generalizing pos with
  | nil => simp [positionOfId] at h
  | cons p rest ih =>
    simp only [positionOfId] at h
    by_cases hp : (p.id == id) = true
    · rw [if_pos hp] at h
      obtain rfl : (0 : Nat) = pos := Option.some.inj h
      exact ⟨Nat.succ_pos _, by simpa using hp⟩
    · rw [if_neg hp] at h
      cases hm : positionOfId rest id with
      | none => rw [hm] at h; simp at h
      | some q =>
        rw [hm] at h
        obtain rfl : q + 1 = pos := by simpa using h
        obtain ⟨hlt, hid⟩ := ih q hm
        exact ⟨Nat.succ_lt_succ hlt, hid⟩

lemma positionOfId_none (l : List ActivePayment) (id : Nat)
    (h : positionOfId l id = none) : ∀ p ∈ l, p.id ≠ id := by
  induction l with
  | nil => intro p hp; simp at hp
  | cons q rest ih =>
    simp only [positionOfId] at h
    by_cases hq : (q.id == id) = true
    · rw [if_pos hq] at h; simp at h
    · rw [if_neg hq] at h
      intro p hp
      rcases List.mem_cons.mp hp with rfl | hmem
      · simpa using hq
      · cases hm : positionOfId rest id with
        | none => exact ih hm p hmem
        | some _ => rw [hm] at h; simp at h

lemma nodup_ids_getElem_inj (reg : List ActivePayment)
    (hnd : (reg.map (fun p => p.id)).Nodup)
    (i j : Nat) (hi : i < reg.length) (hj : j < reg.length)
    (hij : (reg.get ⟨i, hi⟩).id = (reg.get ⟨j, hj⟩).id) : i = j := by
  have hmi : i < (reg.map (fun p => p.id)).length := by simpa using hi
  have hmj : j < (reg.map (fun p => p.id)).length := by simpa using hj
  have : (reg.map (fun p => p.id))[i] = (reg.map (fun p => p.id))[j] := by
    simpa [List.getElem_map] using hij
  exact (List.Nodup.getElem_inj_iff hnd).mp this

lemma remove_payment_not_mem (reg : List ActivePayment) (id : Nat)
    (hnd : (reg.map (fun p => p.id)).Nodup) :
    ∀ p ∈ (remove_payment reg id).2, p.id ≠ id := by
  cases hpos : positionOfId reg id with
  | none =>
    simp only [remove_payment, hpos]
    exact positionOfId_none reg id hpos
  | some pos =>
    simp only [remove_payment, hpos]
    obtain ⟨hlt, hid⟩ := positionOfId_some reg id pos hpos
    intro p hp
    unfold swapRemove at hp
    cases hlast : reg.getLast? with
    | none =>
      rw [List.getLast?_eq_none_iff] at hlast
      rw [hlast] at hlt
      simp at hlt
    | some x =>
      rw [hlast] at hp
      obtain ⟨i, hi, hget⟩ := List.mem_iff_getElem.mp hp
      have hi' : i < reg.length - 1 := by
        simpa [List.length_dropLast, List.length_set] using hi
      have hx : reg.get ⟨reg.length - 1, by omega⟩ = x := by
        have := (List.getLast?_eq_getElem? reg).symm.trans hlast
        rw [List.getElem?_eq_getElem (by omega)] at this
        simpa using this
      rw [List.getElem_dropLast, List.getElem_set] at hget
      intro hpid
      by_cases hip : pos = i
      · rw [if_pos hip] at hget
        have hxid : x.id = id := by rw [hget]; exact hpid
        have : reg.length - 1 = pos :=
          nodup_ids_getElem_inj reg hnd (reg.length - 1) pos (by omega) hlt
            (by rw [hx, hxid, hid])
        omega
      · rw [if_neg hip] at hget
        have : i = pos :=
          nodup_ids_getElem_inj reg hnd i pos (by omega) hlt
            (by
              have : (reg.get ⟨i, by omega⟩) = p := by simpa using hget
              rw [this, hpid, hid])
        exact hip this.symm

/-- Counterexample to claim C3 as stated: `try_acquire_payment` does NOT
remove the session — the Rust method takes the lock, `iter().find`s and
`clone`s, leaving the vector untouched — so acquiring the same id from
the registry state left by a successful acquire succeeds again instead
of failing with `NoSuchPayment`. -/
theorem claim_c3_counterexample :
    (try_acquire_payment [⟨⟨"n", "s", "f", 10, "t"⟩, 1, 0, 7⟩] 7).1
      = .ok ⟨⟨"n", "s", "f", 10, "t"⟩, 1, 0, 7⟩
    ∧ (try_acquire_payment
        ((try_acquire_payment [⟨⟨"n", "s", "f", 10, "t"⟩, 1, 0, 7⟩] 7).2) 7).1
      = .ok ⟨⟨"n", "s", "f", 10, "t"⟩, 1, 0, 7⟩
    ∧ (try_acquire_payment
        ((try_acquire_payment [⟨⟨"n", "s", "f", 10, "t"⟩, 1, 0, 7⟩] 7).2) 7).1
      ≠ .error (.NoPaymentError 7) := by
  decide

/-- Claim C3 as amended: `try_acquire_payment` is a non-destructive
read: a successful acquire returns a session of the requested id that is
a member of the registry, leaves the registry unchanged, and a second
acquire of the same id from the resulting registry succeeds with the
same session (one-shot consumption is instead attempted by
`trigger_payment` calling `remove_payment` after the transfer). -/
theorem claim_c3_amended :
    ∀ (reg : List ActivePayment) (id : Nat) (p : ActivePayment),
      (try_acquire_payment reg id).1 = .ok p →
      p ∈ reg ∧ p.id = id
    ∧ (try_acquire_payment reg id).2 = reg
    ∧ (try_acquire_payment ((try_acquire_payment reg id).2) id).1 = .ok p := by
  intro reg id p h
  unfold try_acquire_payment at *
  cases hf : reg.find? (fun q => q.id == id) with
  | none => rw [hf] at h; simp at h
  | some q =>
    rw [hf] at h
    obtain rfl : q = p := by simpa using h
    refine ⟨List.mem_of_find?_eq_some hf, ?_, rfl, by rw [hf]⟩
    have := List.find?_some hf
    simpa using this

/-- Witness for the amended C3 at a concrete registry with one session. -/
theorem claim_c3_amended_witness :
    (⟨⟨"n", "s", "f", 10, "t"⟩, 1, 0, 7⟩ : ActivePayment)
      ∈ [(⟨⟨"n", "s", "f", 10, "t"⟩, 1, 0, 7⟩ : ActivePayment)]
    ∧ (try_acquire_payment [⟨⟨"n", "s", "f", 10, "t"⟩, 1, 0, 7⟩] 7).2
        = [⟨⟨"n", "s", "f", 10, "t"⟩, 1, 0, 7⟩] :=
  ⟨(claim_c3_amended [⟨⟨"n", "s", "f", 10, "t"⟩, 1, 0, 7⟩] 7
      ⟨⟨"n", "s", "f", 10, "t"⟩, 1, 0, 7⟩ (by decide)).1,
   (claim_c3_amended [⟨⟨"n", "s", "f", 10, "t"⟩, 1, 0, 7⟩] 7
      ⟨⟨"n", "s", "f", 10, "t"⟩, 1, 0, 7⟩ (by decide)).2.2.1⟩

/-- Counterexample to claim C4 as stated: when cardholder authorization
fails (here: no such account in a fresh bank), `trigger_payment`
redirects to the session's fail url but `return`s before the
`remove_payment` call, so the session is still in the registry —
contradicting the claim that every terminal transition removes it. -/
theorem claim_c4_counterexample :
    trigger_payment (Bank.new "pw" "u")
      [⟨⟨"n", "s", "f", 10, "t"⟩, 1, 0, 7⟩] 7 2 "x" 0
      = (.redirect "f", Bank.new "pw" "u", [⟨⟨"n", "s", "f", 10, "t"⟩, 1, 0, 7⟩])
    ∧ (⟨⟨"n", "s", "f", 10, "t"⟩, 1, 0, 7⟩ : ActivePayment)
        ∈ (trigger_payment (Bank.new "pw" "u")
            [⟨⟨"n", "s", "f", 10, "t"⟩, 1, 0, 7⟩] 7 2 "x" 0).2.2 := by
  decide

/-- Claim C4 as amended: on cardholder-authorization failure against the
ledger, the caller IS redirected to the session's `fail_url`, but the
session is NOT removed: the registry (and the bank) are returned
unchanged; only the transfer paths (ledger success or ledger error)
reach the removal. -/
theorem claim_c4_amended :
    ∀ (bank : BankInner) (reg : List ActivePayment) (payment_id : Nat)
      (card : CardNumber) (password : String) (now : Nat)
      (p : ActivePayment) (e : BankOperationError),
      (try_acquire_payment reg payment_id).1 = .ok p →
      authorize_account bank card password = .error e →
      trigger_payment bank reg payment_id card password now
        = (.redirect p.request.fail_url, bank, reg) := by
  intro bank reg payment_id card password now p e hacq hauth
  simp only [trigger_payment, hacq, hauth]

/-- Witness for the amended C4 at the concrete failing-authorization
state (fresh bank, registry containing one session with id 7). -/
theorem claim_c4_amended_witness :
    trigger_payment (Bank.new "pw" "u")
      [⟨⟨"n", "s", "f", 10, "t"⟩, 1, 0, 9⟩] 9 2 "x" 0
      = (.redirect "f", Bank.new "pw" "u",
         [⟨⟨"n", "s", "f", 10, "t"⟩, 1, 0, 9⟩]) :=
  claim_c4_amended (Bank.new "pw" "u") [⟨⟨"n", "s", "f", 10, "t"⟩, 1, 0, 9⟩]
    9 2 "x" 0 ⟨⟨"n", "s", "f", 10, "t"⟩, 1, 0, 9⟩ .AccountNotFound
    (by decide) (by decide)

/-- Claim C9: `remove_payment` always returns `Ok` — on a registry
state, on the state that results from a first removal (removing twice),
and for ids that were never present — and, for every registry whose
session ids are distinct (which they are: ids are freshly generated
UUIDs), no session with the removed id remains afterwards. -/
theorem claim_c9 :
    ∀ (reg : List ActivePayment) (id : Nat),
      (remove_payment reg id).1 = .ok ()
    ∧ (remove_payment (remove_payment reg id).2 id).1 = .ok ()
    ∧ ((reg.map (fun p => p.id)).Nodup →
        ∀ p ∈ (remove_payment reg id).2, p.id ≠ id) := by
  intro reg id
  have hok : ∀ (r : List ActivePayment), (remove_payment r id).1 = .ok () := by
    intro r
    unfold remove_payment
    cases positionOfId r id <;> rfl
  exact ⟨hok reg, hok (remove_payment reg id).2, remove_payment_not_mem reg id⟩

/-- Witness for C9 at a concrete one-session registry: both removals
return `Ok` and the session is gone after the first. -/
theorem claim_c9_witness :
    (remove_payment [⟨⟨"n", "s", "f", 10, "t"⟩, 1, 0, 7⟩] 7).1 = .ok ()
    ∧ (remove_payment
        (remove_payment [⟨⟨"n", "s", "f", 10, "t"⟩, 1, 0, 7⟩] 7).2 7).1 = .ok ()
    ∧ ¬ ((⟨⟨"n", "s", "f", 10, "t"⟩, 1, 0, 7⟩ : ActivePayment)
          ∈ (remove_payment [⟨⟨"n", "s", "f", 10, "t"⟩, 1, 0, 7⟩] 7).2) :=
  ⟨(claim_c9 [⟨⟨"n", "s", "f", 10, "t"⟩, 1, 0, 7⟩] 7).1,
   (claim_c9 [⟨⟨"n", "s", "f", 10, "t"⟩, 1, 0, 7⟩] 7).2.1,
   fun hmem =>
     (claim_c9 [⟨⟨"n", "s", "f", 10, "t"⟩, 1, 0, 7⟩] 7).2.2 (by decide)
       ⟨⟨"n", "s", "f", 10, "t"⟩, 1, 0, 7⟩ hmem rfl⟩

/-- Invariant behind claim C10: the emission and store bootstrap
accounts keep the card numbers fixed at construction, every card the
generator hands out is distinct from both, and hence neither bootstrap
account is ever a member of the bank's account list. -/
def Inv10 (st : BankInner) : Prop :=
  st.emission_account.card_number = 0 ∧ st.store_account.card_number = 1
  ∧ 2 ≤ st.next_card ∧ ∀ a ∈ st.accounts, 2 ≤ a.card_number

lemma markDeleted_cards (l : List Account) (card : CardNumber)
    (l' : List Account) (h : markDeleted l card = some l') :
    l'.map (fun a => a.card_number) = l.map (fun a => a.card_number) := by
  induction l generalizing l' with
  | nil => simp [markDeleted] at h
  | cons x rest ih =>
    simp only [markDeleted] at h
    by_cases hx : (x.card_number == card) = true
    · rw [if_pos hx] at h
      obtain rfl : { x with is_existing := false } :: rest = l' :=
        Option.some.inj h
      simp
    · rw [if_neg hx] at h
      cases hm : markDeleted rest card with
      | none => rw [hm] at h; simp at h
      | some r' =>
        rw [hm] at h
        obtain rfl : x :: r' = l' := Option.some.inj (by simpa using h)
        simp [ih r' hm]

lemma inv10_step (st : BankInner) (op : BankOp) (h : Inv10 st) :
    Inv10 (applyOp st op) := by
  obtain ⟨he, hs, hn, hacc⟩ := h
  cases op with
  | addAccount password =>
    refine ⟨he, hs, by simp [applyOp, add_account]; omega, ?_⟩
    intro a ha
    simp only [applyOp, add_account, List.mem_append, List.mem_singleton] at ha
    rcases ha with ha | rfl
    · exact hacc a ha
    · exact hn
  | deleteAccount card =>
    simp only [applyOp, delete_account]
    cases hm : markDeleted st.accounts card with
    | none => exact ⟨he, hs, hn, hacc⟩
    | some l' =>
      refine ⟨he, hs, hn, ?_⟩
      intro a ha
      have hmem : a.card_number ∈ l'.map (fun a => a.card_number) :=
        List.mem_map_of_mem _ ha
      rw [markDeleted_cards st.accounts card l' hm] at hmem
      obtain ⟨b, hb, hbc⟩ := List.mem_map.mp hmem
      rw [← hbc]
      exact hacc b hb
  | openCredit card amount now =>
    simp only [applyOp, open_credit]
    cases hf : find_account st card <;> simp only [hf] <;>
      exact ⟨he, hs, hn, hacc⟩
  | newTransaction s r amount now =>
    simp only [applyOp, new_transaction]
    split
    · exact ⟨he, hs, hn, hacc⟩
    · split
      · exact ⟨he, hs, hn, hacc⟩
      · split <;> exact ⟨he, hs, hn, hacc⟩

lemma inv10_ops (pw user : String) (ops : List BankOp) :
    Inv10 (applyOps (Bank.new pw user) ops) := by
  suffices h : ∀ st, Inv10 st → Inv10 (applyOps st ops) by
    refine h _ ?_
    exact ⟨rfl, rfl, le_refl 2, fun a ha => by simp [Bank.new] at ha⟩
  induction ops with
  | nil => exact fun st h => h
  | cons op ops ih => exact fun st h => ih (applyOp st op) (inv10_step st op h)

lemma markDeleted_none (l : List Account) (c : CardNumber)
    (h : ∀ a ∈ l, a.card_number ≠ c) : markDeleted l c = none := by
  induction l with
  | nil => rfl
  | cons x rest ih =>
    simp only [markDeleted]
    rw [if_neg (by simpa using h x (List.mem_cons_self x rest)),
      ih (fun a ha => h a (List.mem_cons_of_mem x ha))]
    rfl

/-- Claim C10: for every reachable bank state (any operation sequence
from construction), no account in the bank's list carries the emission
or store card number, so `find_account`, `authorize_account`,
`delete_account` and `open_credit` on either bootstrap card all return
`AccountNotFound` and leave the state unchanged. -/
theorem claim_c10 :
    ∀ (pw user : String) (ops : List BankOp) (password : String)
      (amount : Int) (now : Nat) (card : CardNumber),
      (card = (applyOps (Bank.new pw user) ops).emission_account.card_number ∨
        card = (applyOps (Bank.new pw user) ops).store_account.card_number) →
      (∀ a ∈ (applyOps (Bank.new pw user) ops).accounts, a.card_number ≠ card)
    ∧ find_account (applyOps (Bank.new pw user) ops) card
        = .error .AccountNotFound
    ∧ authorize_account (applyOps (Bank.new pw user) ops) card password
        = .error .AccountNotFound
    ∧ delete_account (applyOps (Bank.new pw user) ops) card
        = (.error .AccountNotFound, applyOps (Bank.new pw user) ops)
    ∧ open_credit (applyOps (Bank.new pw user) ops) card amount now
        = (.error .AccountNotFound, applyOps (Bank.new pw user) ops) := by
  intro pw user ops password amount now card hcard
  obtain ⟨he, hs, _, hacc⟩ := inv10_ops pw user ops
  have hne : ∀ a ∈ (applyOps (Bank.new pw user) ops).accounts,
      a.card_number ≠ card := by
    intro a ha
    have h2 := hacc a ha
    rcases hcard with rfl | rfl
    · rw [he]
      exact fun h0 => by rw [h0] at h2; exact absurd h2 (by decide)
    · rw [hs]
      exact fun h1 => by rw [h1] at h2; exact absurd h2 (by decide)
  have hfind : (applyOps (Bank.new pw user) ops).accounts.find?
      (fun acc => acc.card_number == card) = none :=
    List.find?_eq_none.mpr (fun a ha => by simpa using hne a ha)
  have hfa : find_account (applyOps (Bank.new pw user) ops) card
      = .error .AccountNotFound := by
    simp [find_account, hfind]
  refine ⟨hne, hfa, ?_, ?_, ?_⟩
  · simp only [authorize_account, hfa]
  · simp [delete_account, markDeleted_none _ _ hne]
  · simp [open_credit, hfa]

/-- Witness for C10 after one `add_account` on a fresh bank, at the
emission account's card number (0): the one listed account has a
different card, and all four card-keyed operations report
`AccountNotFound`. -/
theorem claim_c10_witness :
    find_account (applyOps (Bank.new "p" "u") [.addAccount "q"]) 0
      = .error .AccountNotFound
    ∧ authorize_account (applyOps (Bank.new "p" "u") [.addAccount "q"]) 0 "z"
      = .error .AccountNotFound
    ∧ (⟨2, "q", true⟩ : Account).card_number ≠ 0
    ∧ open_credit (applyOps (Bank.new "p" "u") [.addAccount "q"]) 0 5 0
      = (.error .AccountNotFound, applyOps (Bank.new "p" "u") [.addAccount "q"]) :=
  ⟨(claim_c10 "p" "u" [.addAccount "q"] "z" 5 0 0 (Or.inl (by decide))).2.1,
   (claim_c10 "p" "u" [.addAccount "q"] "z" 5 0 0 (Or.inl (by decide))).2.2.1,
   (claim_c10 "p" "u" [.addAccount "q"] "z" 5 0 0 (Or.inl (by decide))).1
     ⟨2, "q", true⟩ (by decide),
   (claim_c10 "p" "u" [.addAccount "q"] "z" 5 0 0 (Or.inl (by decide))).2.2.2.2⟩

/-!
The request-signing token of `acquisim-api` (`init_payment.rs`):
`generate_token` collects the request's signable fields into a
`BTreeMap` keyed by field name, appends the shared cashbox password,
concatenates the values in sorted-key order
(amount, fail_url, notification_url, password, success_url) and returns
the lowercase-hex SHA-256 of the UTF-8 bytes.  SHA-256 (the `sha2`
crate) is embedded below over byte lists, words as naturals reduced
modulo 2^32.
-/

def w32 (n : Nat) : Nat := n % 4294967296

def rotr32 (x k : Nat) : Nat := w32 ((x >>> k) ||| (x <<< (32 - k)))

def bsig0 (x : Nat) : Nat := (rotr32 x 2) ^^^ (rotr32 x 13) ^^^ (rotr32 x 22)

def bsig1 (x : Nat) : Nat := (rotr32 x 6) ^^^ (rotr32 x 11) ^^^ (rotr32 x 25)

def ssig0 (x : Nat) : Nat := (rotr32 x 7) ^^^ (rotr32 x 18) ^^^ (x >>> 3)

def ssig1 (x : Nat) : Nat := (rotr32 x 17) ^^^ (rotr32 x 19) ^^^ (x >>> 10)

def ch256 (x y z : Nat) : Nat := (x &&& y) ^^^ ((x ^^^ 4294967295) &&& z)

def maj256 (x y z : Nat) : Nat := (x &&& y) ^^^ (x &&& z) ^^^ (y &&& z)

def sha256K : List Nat :=
  [1116352408, 1899447441, 3049323471, 3921009573,
   961987163, 1508970993, 2453635748, 2870763221,
   3624381080, 310598401, 607225278, 1426881987,
   1925078388, 2162078206, 2614888103, 3248222580,
   3835390401, 4022224774, 264347078, 604807628,
   770255983, 1249150122, 1555081692, 1996064986,
   2554220882, 2821834349, 2952996808, 3210313671,
   3336571891, 3584528711, 113926993, 338241895,
   666307205, 773529912, 1294757372, 1396182291,
   1695183700, 1986661051, 2177026350, 2456956037,
   2730485921, 2820302411, 3259730800, 3345764771,
   3516065817, 3600352804, 4094571909, 275423344,
   430227734, 506948616, 659060556, 883997877,
   958139571, 1322822218, 1537002063, 1747873779,
   1955562222, 2024104815, 2227730452, 2361852424,
   2428436474, 2756734187, 3204031479, 3329325298]

def sha256H0 : List Nat :=
  [1779033703, 3144134277, 1013904242, 2773480762,
   1359893119, 2600822924, 528734635, 1541459225]

def bytesToWords : Nat → List Nat → List Nat
  | 0, _ => []
  | fuel + 1, b0 :: b1 :: b2 :: b3 :: rest =>
    ((b0 <<< 24) ||| (b1 <<< 16) ||| (b2 <<< 8) ||| b3)
      :: bytesToWords fuel rest
  | _ + 1, _ => []

def chunks64 : Nat → List Nat → List (List Nat)
  | 0, _ => []
  | _ + 1, [] => []
  | fuel + 1, l => l.take 64 :: chunks64 fuel (l.drop 64)

def sha256Schedule (ws : List Nat) : List Nat :=
  (List.range 48).foldl
    (fun acc _ =>
      let n := acc.length
      acc ++ [w32 (ssig1 (acc.getD (n - 2) 0) + acc.getD (n - 7) 0
        + ssig0 (acc.getD (n - 15) 0) + acc.getD (n - 16) 0)]) ws

def sha256Compress (hs ws : List Nat) : List Nat :=
  let v := (List.range 64).foldl
    (fun v i =>
      let a := v.getD 0 0
      let b := v.getD 1 0
      let c := v.getD 2 0
      let d := v.getD 3 0
      let e := v.getD 4 0
      let f := v.getD 5 0
      let g := v.getD 6 0
      let hh := v.getD 7 0
      let t1 := w32 (hh + bsig1 e + ch256 e f g
        + sha256K.getD i 0 + ws.getD i 0)
      let t2 := w32 (bsig0 a + maj256 a b c)
      [w32 (t1 + t2), a, b, c, w32 (d + t1), e, f, g]) hs
  List.zipWith (fun x y => w32 (x + y)) hs v

def sha256Pad (msg : List Nat) : List Nat :=
  let bitLen := msg.length * 8
  let z := (64 + 56 - ((msg.length + 1) % 64)) % 64
  msg ++ [128] ++ List.replicate z 0
    ++ (List.range 8).map (fun i => (bitLen >>> (56 - 8 * i)) % 256)

def sha256Words (msg : List Nat) : List Nat :=
  let padded := sha256Pad msg
  (chunks64 padded.length padded).foldl
    (fun hs chunk => sha256Compress hs (sha256Schedule (bytesToWords 16 chunk)))
    sha256H0

def hexDigitChar (n : Nat) : Char :=
  if n < 10 then Char.ofNat (48 + n) else Char.ofNat (87 + n)

def wordHex (w : Nat) : List Char :=
  (List.range 8).map (fun i => hexDigitChar ((w >>> (28 - 4 * i)) % 16))

def sha256Hex (msg : List Nat) : String :=
  ⟨(sha256Words msg).foldr (fun w acc => wordHex w ++ acc) []⟩

/-- UTF-8 encoding of one scalar value. -/
def utf8EncodeChar (c : Char) : List Nat :=
  let n := c.toNat
  if n < 128 then [n]
  else if n < 2048 then [192 ||| (n >>> 6), 128 ||| (n &&& 63)]
  else if n < 65536 then
    [224 ||| (n >>> 12), 128 ||| ((n >>> 6) &&& 63), 128 ||| (n &&& 63)]
  else
    [240 ||| (n >>> 18), 128 ||| ((n >>> 12) &&& 63),
     128 ||| ((n >>> 6) &&& 63), 128 ||| (n &&& 63)]

/-- UTF-8 bytes of a string. -/
def strBytes (s : String) : List Nat :=
  (s.data.map utf8EncodeChar).flatten

set_option maxRecDepth 40000 in
example : sha256Hex (strBytes "abc")
    = "ba7816bf8f01cfea414140de5dae2223b00361a396177a9cb410ff61f20015ad" := by
  decide

set_option maxRecDepth 40000 in
example : sha256Hex (strBytes "")
    = "e3b0c44298fc1c149afbf4c8996fb92427ae41e4649b934ca495991b7852b855" := by
  decide

/-- Decimal digit character, mirroring the digits that Rust's
`i64::to_string` emits. -/
def digitChar (n : Nat) : Char := Char.ofNat (48 + n)

/-- Decimal digits of a natural, most significant first (fuel-based so
it reduces by `decide`). -/
def natDecAux : Nat → Nat → List Char
  | 0, _ => []
  | fuel + 1, n =>
    if n < 10 then [digitChar n]
    else natDecAux fuel (n / 10) ++ [digitChar (n % 10)]

def natDecStr (n : Nat) : List Char := natDecAux (n + 1) n

/-- `i64::to_string`: optional minus sign followed by the decimal digits
of the absolute value. -/
def intDecStr (i : Int) : String :=
  if i < 0 then ⟨'-' :: natDecStr i.natAbs⟩ else ⟨natDecStr i.toNat⟩

/-- Token preimage of `InitPaymentRequest::generate_token`: the
`BTreeMap` values concatenated in sorted-key order —
amount, fail_url, notification_url, password, success_url. -/
def token_preimage (r : InitPaymentRequest) (cashbox_password : String) : String :=
  intDecStr r.amount ++ r.fail_url ++ r.notification_url
    ++ cashbox_password ++ r.success_url

/-- `InitPaymentRequest::generate_token`: lowercase-hex SHA-256 of the
UTF-8 bytes of the token preimage. -/
def generate_token (r : InitPaymentRequest) (cashbox_password : String) : String :=
  sha256Hex (strBytes (token_preimage r cashbox_password))

/-- Token check of the `init_payment` handler
(`src/backends/acquisim/src/routes/api.rs`): recompute the token from
the request's own fields and compare it with the token the request
carries. -/
def validate_token (r : InitPaymentRequest) (cashbox_password : String) : Bool :=
  generate_token r cashbox_password == r.token

/-- `InitPaymentRequest::new`: build the request with an empty token,
then store the generated token in it. -/
def InitPaymentRequest.new (notification_url success_url fail_url : String)
    (amount : Int) (cashbox_password : String) : InitPaymentRequest :=
  let req : InitPaymentRequest :=
    ⟨notification_url, success_url, fail_url, amount, ""⟩
  { req with token := generate_token req cashbox_password }

lemma digitChar_toNat {n : Nat} (h : n < 10) : (digitChar n).toNat = 48 + n := by
  interval_cases n <;> rfl

lemma natDecAux_eval (fuel : Nat) : ∀ (n : Nat), n < fuel → ∀ (a : Nat),
    (natDecAux fuel n).foldl (fun acc c => 10 * acc + (c.toNat - 48)) a
      = a * 10 ^ (natDecAux fuel n).length + n := by
  induction fuel with
  | zero => intro n h; omega
  | succ fuel ih =>
    intro n hn a
    simp only [natDecAux]
    by_cases h10 : n < 10
    · rw [if_pos h10]
      simp [digitChar_toNat h10]
      ring
    · rw [if_neg h10]
      rw [List.foldl_append]
      have hdiv : n / 10 < fuel := by omega
      rw [ih (n / 10) hdiv a]
      simp only [List.foldl_cons, List.foldl_nil,
        digitChar_toNat (Nat.mod_lt n (by norm_num)), List.length_append,
        List.length_cons, List.length_nil]
      have hrw : a * 10 ^ ((natDecAux fuel (n / 10)).length + (0 + 1))
          = (a * 10 ^ (natDecAux fuel (n / 10)).length) * 10 := by ring
      rw [hrw]
      omega

lemma natDecStr_eval (n : Nat) :
    (natDecStr n).foldl (fun acc c => 10 * acc + (c.toNat - 48)) 0 = n := by
  have := natDecAux_eval (n + 1) n (by omega) 0
  simpa [natDecStr] using this

lemma natDecStr_inj {m n : Nat} (h : natDecStr m = natDecStr n) : m = n := by
  have hm := natDecStr_eval m
  rw [h, natDecStr_eval] at hm
  omega

lemma natDecAux_digits (fuel : Nat) : ∀ (n : Nat), ∀ c ∈ natDecAux fuel n,
    48 ≤ c.toNat := by
  induction fuel with
  | zero => intro n c hc; simp [natDecAux] at hc
  | succ fuel ih =>
    intro n c hc
    simp only [natDecAux] at hc
    by_cases h10 : n < 10
    · rw [if_pos h10] at hc
      obtain rfl : c = digitChar n := by simpa using hc
      rw [digitChar_toNat h10]
      omega
    · rw [if_neg h10] at hc
      rcases List.mem_append.mp hc with hm | hm
      · exact ih (n / 10) c hm
      · obtain rfl : c = digitChar (n % 10) := by simpa using hm
        rw [digitChar_toNat (Nat.mod_lt n (by norm_num))]
        omega

lemma intDecStr_inj {i j : Int} (h : intDecStr i = intDecStr j) : i = j := by
  unfold intDecStr at h
  by_cases hi : i < 0 <;> by_cases hj : j < 0
  · rw [if_pos hi, if_pos hj] at h
    have hd : '-' :: natDecStr i.natAbs = '-' :: natDecStr j.natAbs :=
      congrArg String.data h
    have habs := natDecStr_inj (List.cons.inj hd).2
    omega
  · exfalso
    rw [if_pos hi, if_neg hj] at h
    have hd : '-' :: natDecStr i.natAbs = natDecStr j.toNat :=
      congrArg String.data h
    have hmem : '-' ∈ natDecStr j.toNat := by
      rw [← hd]; exact List.mem_cons_self _ _
    exact absurd (natDecAux_digits (j.toNat + 1) j.toNat '-' hmem) (by decide)
  · exfalso
    rw [if_neg hi, if_pos hj] at h
    have hd : natDecStr i.toNat = '-' :: natDecStr j.natAbs :=
      congrArg String.data h
    have hmem : '-' ∈ natDecStr i.toNat := by
      rw [hd]; exact List.mem_cons_self _ _
    exact absurd (natDecAux_digits (i.toNat + 1) i.toNat '-' hmem) (by decide)
  · rw [if_neg hi, if_neg hj] at h
    have hd : natDecStr i.toNat = natDecStr j.toNat := congrArg String.data h
    have := natDecStr_inj hd
    omega

set_option maxRecDepth 40000 in
/-- Claim C6: `generate_token` is a pure function of the signable fields
and the secret (SHA-256 hex of the values concatenated in sorted-key
order); validating a request signed with the same secret always
succeeds; mutating any signed field (any of the three URLs or the
amount) changes the hashed preimage — so validation then compares
hashes of two distinct strings — and on a concrete mutated request
validation indeed fails. -/
theorem claim_c6 :
    (∀ (n s f : String) (a : Int) (pw : String),
      validate_token (InitPaymentRequest.new n s f a pw) pw = true)
  ∧ (∀ (r : InitPaymentRequest) (pw x : String), x ≠ r.notification_url →
      token_preimage { r with notification_url := x } pw ≠ token_preimage r pw)
  ∧ (∀ (r : InitPaymentRequest) (pw x : String), x ≠ r.success_url →
      token_preimage { r with success_url := x } pw ≠ token_preimage r pw)
  ∧ (∀ (r : InitPaymentRequest) (pw x : String), x ≠ r.fail_url →
      token_preimage { r with fail_url := x } pw ≠ token_preimage r pw)
  ∧ (∀ (r : InitPaymentRequest) (pw : String) (a : Int), a ≠ r.amount →
      token_preimage { r with amount := a } pw ≠ token_preimage r pw)
  ∧ validate_token
      { InitPaymentRequest.new "n" "s" "f" 1 "p" with amount := 2 } "p"
      = false := by
  refine ⟨?_, ?_, ?_, ?_, ?_, ?_⟩
  · intro n s f a pw
    simp [validate_token, InitPaymentRequest.new, generate_token, token_preimage]
  · intro r pw x hx heq
    apply hx
    have hd := congrArg String.data heq
    simp only [token_preimage, String.data_append] at hd
    exact String.ext
      (List.append_cancel_left
        (List.append_cancel_right (List.append_cancel_right hd)))
  · intro r pw x hx heq
    apply hx
    have hd := congrArg String.data heq
    simp only [token_preimage, String.data_append] at hd
    exact String.ext (List.append_cancel_left hd)
  · intro r pw x hx heq
    apply hx
    have hd := congrArg String.data heq
    simp only [token_preimage, String.data_append] at hd
    exact String.ext
      (List.append_cancel_left
        (List.append_cancel_right
          (List.append_cancel_right (List.append_cancel_right hd))))
  · intro r pw a ha heq
    apply ha
    have hd := congrArg String.data heq
    simp only [token_preimage, String.data_append] at hd
    exact intDecStr_inj
      (String.ext
        (List.append_cancel_right
          (List.append_cancel_right
            (List.append_cancel_right (List.append_cancel_right hd)))))
  · decide

/-- Witness for C6: the round trip at a concrete request, and concrete
single-field mutations changing the preimage. -/
theorem claim_c6_witness :
    validate_token (InitPaymentRequest.new "n" "s" "f" 1 "p") "p" = true
  ∧ token_preimage
      { InitPaymentRequest.new "n" "s" "f" 1 "p" with amount := 2 } "p"
      ≠ token_preimage (InitPaymentRequest.new "n" "s" "f" 1 "p") "p"
  ∧ token_preimage
      { InitPaymentRequest.new "n" "s" "f" 1 "p" with notification_url := "x" } "p"
      ≠ token_preimage (InitPaymentRequest.new "n" "s" "f" 1 "p") "p" :=
  ⟨claim_c6.1 "n" "s" "f" 1 "p",
   claim_c6.2.2.2.2.1 (InitPaymentRequest.new "n" "s" "f" 1 "p") "p" 2
     (by decide),
   claim_c6.2.1 (InitPaymentRequest.new "n" "s" "f" 1 "p") "p" "x"
     (by decide)⟩
